import Mathlib

/-!
Shallow embedding of `src/src/keywords/if_.rs`: the conditional-combinator
family (if/then/else) of a JSON Schema validator.

Modelling choices:
- A compiled validator node (a boxed `dyn Validate` in the source) is a pair
  of its two observable methods: the boolean check `is_valid` and the
  diagnostic enumeration `validate`.  The root `JSONSchema` argument that the
  source threads through both methods is the same fixed value at every call
  site inside `if_.rs`, so it is absorbed into each node's closures.
- `Inst` is the instance type, `Diag` the diagnostic type, `Value` the schema
  fragment type and `E` the compilation-error type; all four are opaque type
  parameters because `if_.rs` never inspects them.
- The lazy `ErrorIterator` is modelled as the finite list of diagnostics it
  yields (`no_error()` is the empty list, `collect` + `into_iter` is the
  identity on that list).
- `compile_validators(fragment, context)` is external to `if_.rs`; it is a
  parameter of type `Value → Except E (Validators Inst Diag)` (the `context`
  argument is the same at all three call sites and is absorbed).
-/

universe u v w x

variable {Inst : Type u} {Diag : Type v} {Value : Type w} {E : Type x}

/-- A compiled validator node: the dual-mode `Validate` contract (cheap
boolean check plus full diagnostic enumeration). -/
structure Validator (Inst : Type u) (Diag : Type v) where
  is_valid : Inst → Bool
  validate : Inst → List Diag

/-- `Validators`: an ordered collection of sibling validator nodes
(`Vec<BoxedValidator>` in the source). -/
abbrev Validators (Inst : Type u) (Diag : Type v) := List (Validator Inst Diag)

/-- The `IfThenValidator` node: compiled condition collection `schema` and
compiled then-branch collection `then_schema`. -/
structure IfThenValidator (Inst : Type u) (Diag : Type v) where
  schema : Validators Inst Diag
  then_schema : Validators Inst Diag

/-- `IfThenValidator::validate`: if every condition validator answers
`is_valid`, flatten the then-branch's diagnostics; otherwise `no_error()`. -/
def IfThenValidator.validate (v : IfThenValidator Inst Diag) (inst : Inst) :
    List Diag :=
  if v.schema.all (fun validator => validator.is_valid inst) then
    v.then_schema.flatMap (fun validator => validator.validate inst)
  else []

/-- Modelled from the spec: the `Validate` trait that supplies `is_valid`
for these nodes lives outside `src/`.  Per the spec, "`is_valid` for all
three variants must reuse the same condition test and branch selection logic
as `validate`, but only compute the selected branch's boolean outcome, never
materializing diagnostics". -/
def IfThenValidator.is_valid (v : IfThenValidator Inst Diag) (inst : Inst) :
    Bool :=
  if v.schema.all (fun validator => validator.is_valid inst) then
    v.then_schema.all (fun validator => validator.is_valid inst)
  else true

/-- `IfThenValidator::compile`: compile the condition fragment, then the
then fragment, propagating the first compilation error via `?`. -/
def IfThenValidator.compile
    (compile_validators : Value → Except E (Validators Inst Diag))
    (schema then_schema : Value) : Except E (IfThenValidator Inst Diag) := do
  let s ← compile_validators schema
  let t ← compile_validators then_schema
  pure ⟨s, t⟩

/-- The `IfElseValidator` node: compiled condition collection `schema` and
compiled else-branch collection `else_schema`. -/
structure IfElseValidator (Inst : Type u) (Diag : Type v) where
  schema : Validators Inst Diag
  else_schema : Validators Inst Diag

/-- `IfElseValidator::validate`: if some condition validator fails
`is_valid`, flatten the else-branch's diagnostics; otherwise `no_error()`. -/
def IfElseValidator.validate (v : IfElseValidator Inst Diag) (inst : Inst) :
    List Diag :=
  if v.schema.any (fun validator => !(validator.is_valid inst)) then
    v.else_schema.flatMap (fun validator => validator.validate inst)
  else []

/-- Modelled from the spec: `is_valid` for `IfElseValidator` (the trait
default lives outside `src/`); same condition test and branch selection as
`validate`, computing only the selected branch's boolean outcome. -/
def IfElseValidator.is_valid (v : IfElseValidator Inst Diag) (inst : Inst) :
    Bool :=
  if v.schema.any (fun validator => !(validator.is_valid inst)) then
    v.else_schema.all (fun validator => validator.is_valid inst)
  else true

/-- `IfElseValidator::compile`: compile the condition fragment, then the
else fragment, propagating the first compilation error via `?`. -/
def IfElseValidator.compile
    (compile_validators : Value → Except E (Validators Inst Diag))
    (schema else_schema : Value) : Except E (IfElseValidator Inst Diag) := do
  let s ← compile_validators schema
  let e ← compile_validators else_schema
  pure ⟨s, e⟩

/-- The `IfThenElseValidator` node: compiled condition collection `schema`,
then-branch `then_schema` and else-branch `else_schema`. -/
structure IfThenElseValidator (Inst : Type u) (Diag : Type v) where
  schema : Validators Inst Diag
  then_schema : Validators Inst Diag
  else_schema : Validators Inst Diag

/-- `IfThenElseValidator::validate`: if every condition validator answers
`is_valid`, flatten the then-branch's diagnostics, otherwise flatten the
else-branch's diagnostics. -/
def IfThenElseValidator.validate (v : IfThenElseValidator Inst Diag)
    (inst : Inst) : List Diag :=
  if v.schema.all (fun validator => validator.is_valid inst) then
    v.then_schema.flatMap (fun validator => validator.validate inst)
  else
    v.else_schema.flatMap (fun validator => validator.validate inst)

/-- Modelled from the spec: `is_valid` for `IfThenElseValidator` (the trait
default lives outside `src/`); same condition test and branch selection as
`validate`, computing only the selected branch's boolean outcome. -/
def IfThenElseValidator.is_valid (v : IfThenElseValidator Inst Diag)
    (inst : Inst) : Bool :=
  if v.schema.all (fun validator => validator.is_valid inst) then
    v.then_schema.all (fun validator => validator.is_valid inst)
  else
    v.else_schema.all (fun validator => validator.is_valid inst)

/-- `IfThenElseValidator::compile`: compile the condition fragment, then the
then fragment, then the else fragment, propagating the first compilation
error via `?`. -/
def IfThenElseValidator.compile
    (compile_validators : Value → Except E (Validators Inst Diag))
    (schema then_schema else_schema : Value) :
    Except E (IfThenElseValidator Inst Diag) := do
  let s ← compile_validators schema
  let t ← compile_validators then_schema
  let e ← compile_validators else_schema
  pure ⟨s, t, e⟩

/-- The erased result of the keyword-level `compile`: in the source all
three node shapes are boxed into one `CompilationResult`; here the erasure
is a tagged sum. -/
inductive IfNode (Inst : Type u) (Diag : Type v) where
  | ifThen : IfThenValidator Inst Diag → IfNode Inst Diag
  | ifElse : IfElseValidator Inst Diag → IfNode Inst Diag
  | ifThenElse : IfThenElseValidator Inst Diag → IfNode Inst Diag

/-- `serde_json::Map::get`: the parent fragment's object is modelled as an
association list (keys unique in a JSON object); lookup returns the value of
the first matching key. -/
def mapGet (parent : List (String × Value)) (key : String) : Option Value :=
  (parent.find? (fun p => p.1 == key)).map (fun p => p.2)

/-- The keyword-level `compile` for "if": inspects the presence of "then"
and "else" in the parent fragment and selects one of the three node shapes,
or contributes nothing (`None`) when neither is present. -/
def compile (compile_validators : Value → Except E (Validators Inst Diag))
    (parent : List (String × Value)) (schema : Value) :
    Option (Except E (IfNode Inst Diag)) :=
  let then_ := mapGet parent "then"
  let else_ := mapGet parent "else"
  match then_, else_ with
  | some then_schema, some else_schema =>
      some (Except.map IfNode.ifThenElse
        (IfThenElseValidator.compile compile_validators schema then_schema
          else_schema))
  | none, some else_schema =>
      some (Except.map IfNode.ifElse
        (IfElseValidator.compile compile_validators schema else_schema))
  | some then_schema, none =>
      some (Except.map IfNode.ifThen
        (IfThenValidator.compile compile_validators schema then_schema))
  | none, none => none

/-- A node satisfies the agreement invariant at an instance when its boolean
check is true exactly when its diagnostic sequence is empty (spec invariant
3, assumed of the compiled children handed to the combinators). -/
def agrees (v : Validator Inst Diag) (inst : Inst) : Prop :=
  v.is_valid inst = true ↔ v.validate inst = []

theorem any_not_eq_not_all {α : Type u} (l : List α) (p : α → Bool) :
    l.any (fun a => !(p a)) = !(l.all p) := by
  induction l with
  | nil => simp
  | cons x xs ih => simp [List.any_cons, List.all_cons, ih, Bool.not_and]

theorem all_is_valid_iff_flatMap_validate_nil (l : Validators Inst Diag)
    (inst : Inst) (h : ∀ v ∈ l, agrees v inst) :
    (l.all (fun v => v.is_valid inst) = true ↔
      l.flatMap (fun v => v.validate inst) = []) := by
  simp only [List.all_eq_true, List.flatMap_eq_nil_iff]
  exact ⟨fun ha v hv => (h v hv).mp (ha v hv),
    fun ha v hv => (h v hv).mpr (ha v hv)⟩

/-- A concrete always-valid node over `Nat` instances and `Nat` diagnostics,
used to exercise theorems at concrete inputs. -/
def okNode : Validator Nat Nat := ⟨fun _ => true, fun _ => []⟩

/-- A concrete always-failing node over `Nat` producing one diagnostic. -/
def badNode : Validator Nat Nat := ⟨fun _ => false, fun _ => [7]⟩

/-- C1: for every conditional node (then-only, else-only, then+else) and
every instance, `is_valid` returns true iff `validate` yields the empty
diagnostic sequence, given that the branch children themselves satisfy
spec invariant 3 (their `is_valid` is true iff their `validate` is empty). -/
theorem is_valid_iff_validate_empty
    (tv : IfThenValidator Inst Diag) (ev : IfElseValidator Inst Diag)
    (bv : IfThenElseValidator Inst Diag) (inst : Inst)
    (ht : ∀ v ∈ tv.then_schema, agrees v inst)
    (he : ∀ v ∈ ev.else_schema, agrees v inst)
    (hbt : ∀ v ∈ bv.then_schema, agrees v inst)
    (hbe : ∀ v ∈ bv.else_schema, agrees v inst) :
    (tv.is_valid inst = true ↔ tv.validate inst = [])
    ∧ (ev.is_valid inst = true ↔ ev.validate inst = [])
    ∧ (bv.is_valid inst = true ↔ bv.validate inst = []) := by
  refine ⟨?_, ?_, ?_⟩
  · unfold IfThenValidator.is_valid IfThenValidator.validate
    cases hc : tv.schema.all (fun validator => validator.is_valid inst) with
    | false => simp [hc]
    | true => simp [hc, all_is_valid_iff_flatMap_validate_nil _ _ ht]
  · unfold IfElseValidator.is_valid IfElseValidator.validate
    cases hc : ev.schema.any (fun validator => !(validator.is_valid inst)) with
    | false => simp [hc]
    | true => simp [hc, all_is_valid_iff_flatMap_validate_nil _ _ he]
  · unfold IfThenElseValidator.is_valid IfThenElseValidator.validate
    cases hc : bv.schema.all (fun validator => validator.is_valid inst) with
    | false => simp [hc, all_is_valid_iff_flatMap_validate_nil _ _ hbe]
    | true => simp [hc, all_is_valid_iff_flatMap_validate_nil _ _ hbt]

/-- Witness for C1 at concrete nodes over `Nat`. -/
theorem is_valid_iff_validate_empty_witness :
    ((⟨[okNode], [badNode]⟩ : IfThenValidator Nat Nat).is_valid 0 = true ↔
      (⟨[okNode], [badNode]⟩ : IfThenValidator Nat Nat).validate 0 = [])
    ∧ ((⟨[badNode], [okNode]⟩ : IfElseValidator Nat Nat).is_valid 0 = true ↔
      (⟨[badNode], [okNode]⟩ : IfElseValidator Nat Nat).validate 0 = [])
    ∧ ((⟨[okNode], [badNode], [okNode]⟩ :
        IfThenElseValidator Nat Nat).is_valid 0 = true ↔
      (⟨[okNode], [badNode], [okNode]⟩ :
        IfThenElseValidator Nat Nat).validate 0 = []) :=
  is_valid_iff_validate_empty _ _ _ 0
    (by intro v hv; rw [List.mem_singleton] at hv; subst hv
        simp [agrees, badNode])
    (by intro v hv; rw [List.mem_singleton] at hv; subst hv
        simp [agrees, okNode])
    (by intro v hv; rw [List.mem_singleton] at hv; subst hv
        simp [agrees, badNode])
    (by intro v hv; rw [List.mem_singleton] at hv; subst hv
        simp [agrees, okNode])

/-- C2: `IfThenElseValidator.validate` returns the flattened then-branch
diagnostics (each child's `validate` output, concatenated in child order)
when every condition validator answers `is_valid`, and the flattened
else-branch diagnostics otherwise. -/
theorem if_then_else_validate_selects_branch
    (bv : IfThenElseValidator Inst Diag) (inst : Inst) :
    (bv.schema.all (fun validator => validator.is_valid inst) = true →
      bv.validate inst
        = bv.then_schema.flatMap (fun validator => validator.validate inst))
    ∧ (bv.schema.all (fun validator => validator.is_valid inst) = false →
      bv.validate inst
        = bv.else_schema.flatMap (fun validator => validator.validate inst))
    := by
  unfold IfThenElseValidator.validate
  constructor <;> intro h <;> simp [h]

/-- Witness for C2: condition holds at a concrete node, then-branch
diagnostics are returned. -/
theorem if_then_else_validate_selects_branch_witness :
    ([okNode].all (fun validator => validator.is_valid 0) = true
      ∧ (⟨[okNode], [badNode], []⟩ : IfThenElseValidator Nat Nat).validate 0
        = [badNode].flatMap (fun validator => validator.validate 0)) :=
  ⟨by simp [okNode],
    (if_then_else_validate_selects_branch ⟨[okNode], [badNode], []⟩ 0).1
      (by simp [okNode])⟩

/-- C3: the else-only variant's condition test ("does some validator in C
fail") equals the negation of the then-variants' test ("every validator in
C holds") for every instance; in particular, with an empty condition
collection `IfElseValidator.validate` yields no diagnostics. -/
theorem if_else_condition_negation_and_empty
    (ev : IfElseValidator Inst Diag) (inst : Inst) :
    (ev.schema.any (fun validator => !(validator.is_valid inst))
      = !(ev.schema.all (fun validator => validator.is_valid inst)))
    ∧ (ev.schema = [] → ev.validate inst = []) := by
  refine ⟨any_not_eq_not_all _ _, fun h => ?_⟩
  unfold IfElseValidator.validate
  simp [h]

/-- Witness for C3: an else-only node with empty condition collection
reports no diagnostics. -/
theorem if_else_condition_negation_and_empty_witness :
    (⟨[], [badNode]⟩ : IfElseValidator Nat Nat).validate 0 = [] :=
  (if_else_condition_negation_and_empty ⟨[], [badNode]⟩ 0).2 rfl

/-- C4: when some condition validator answers `is_valid = false`,
`IfThenValidator.validate` yields zero diagnostics, regardless of the
instance's content and of the then-collection. -/
theorem if_then_vacuous_pass (tv : IfThenValidator Inst Diag) (inst : Inst)
    (h : ∃ v ∈ tv.schema, v.is_valid inst = false) :
    tv.validate inst = [] := by
  unfold IfThenValidator.validate
  obtain ⟨v, hv, hf⟩ := h
  have hc : tv.schema.all (fun validator => validator.is_valid inst)
      = false := by
    cases hcb : tv.schema.all (fun validator => validator.is_valid inst) with
    | false => rfl
    | true =>
        rw [List.all_eq_true] at hcb
        exact absurd (hcb v hv) (by simp [hf])
  simp [hc]

/-- Witness for C4 at a concrete failing condition. -/
theorem if_then_vacuous_pass_witness :
    (⟨[badNode], [okNode]⟩ : IfThenValidator Nat Nat).validate 0 = [] :=
  if_then_vacuous_pass _ 0 ⟨badNode, List.mem_singleton.mpr rfl, rfl⟩

theorem map_eq_imp_all_eq {α : Type u} {β : Type v} (f : α → Bool)
    (g : β → Bool) (l1 : List α) (l2 : List β)
    (h : l1.map f = l2.map g) : l1.all f = l2.all g := by
  induction l1 generalizing l2 with
  | nil => cases l2 with | nil => rfl | cons y ys => simp at h
  | cons x xs ih =>
    cases l2 with
    | nil => simp at h
    | cons y ys =>
      simp only [List.map_cons, List.cons.injEq] at h
      simp [List.all_cons, h.1, ih ys h.2]

/-- C5: condition diagnostics are never reported: each variant's `validate`
output is unchanged when the condition validators are replaced by validators
with the same `is_valid` outcomes but arbitrary `validate` output (only the
boolean outcome of C is consulted), and every returned diagnostic belongs to
the selected branch collection's flattened diagnostics. -/
theorem condition_diagnostics_never_reported
    (c c' t e : Validators Inst Diag) (inst : Inst)
    (h : c.map (fun v => v.is_valid inst)
      = c'.map (fun v => v.is_valid inst)) :
    ((IfThenValidator.mk c t).validate inst
        = (IfThenValidator.mk c' t).validate inst
      ∧ ∀ d ∈ (IfThenValidator.mk c t).validate inst,
          d ∈ t.flatMap (fun v => v.validate inst))
    ∧ ((IfElseValidator.mk c e).validate inst
        = (IfElseValidator.mk c' e).validate inst
      ∧ ∀ d ∈ (IfElseValidator.mk c e).validate inst,
          d ∈ e.flatMap (fun v => v.validate inst))
    ∧ ((IfThenElseValidator.mk c t e).validate inst
        = (IfThenElseValidator.mk c' t e).validate inst
      ∧ ∀ d ∈ (IfThenElseValidator.mk c t e).validate inst,
          d ∈ (if c.all (fun v => v.is_valid inst) then t else e).flatMap
              (fun v => v.validate inst)) := by
  have hall : c.all (fun v => v.is_valid inst)
      = c'.all (fun v => v.is_valid inst) :=
    map_eq_imp_all_eq _ _ c c' h
  have hany : c.any (fun v => !(v.is_valid inst))
      = c'.any (fun v => !(v.is_valid inst)) := by
    rw [any_not_eq_not_all, any_not_eq_not_all, hall]
  refine ⟨⟨?_, ?_⟩, ⟨?_, ?_⟩, ⟨?_, ?_⟩⟩
  · unfold IfThenValidator.validate
    dsimp only
    rw [hall]
  · intro d hd
    unfold IfThenValidator.validate at hd
    dsimp only at hd
    split at hd
    · exact hd
    · simp at hd
  · unfold IfElseValidator.validate
    dsimp only
    rw [hany]
  · intro d hd
    unfold IfElseValidator.validate at hd
    dsimp only at hd
    split at hd
    · exact hd
    · simp at hd
  · unfold IfThenElseValidator.validate
    dsimp only
    rw [hall]
  · intro d hd
    unfold IfThenElseValidator.validate at hd
    dsimp only at hd
    split at hd <;> rename_i hc
    · rw [if_pos hc]; exact hd
    · rw [if_neg hc]; exact hd

/-- Witness for C5: replacing a condition validator's diagnostics leaves the
then-only node's output unchanged. -/
theorem condition_diagnostics_never_reported_witness :
    (IfThenValidator.mk [okNode] [badNode]).validate 0
      = (IfThenValidator.mk [⟨fun _ => true, fun _ => [9]⟩] [badNode]).validate
          0 :=
  ((condition_diagnostics_never_reported [okNode]
      [⟨fun _ => true, fun _ => [9]⟩] [badNode] [okNode] 0 rfl).1).1

/-- C6: the keyword-level `compile` selects the node shape purely from the
presence of the "then" and "else" keys in the parent fragment: both present
gives `IfThenElseValidator`, only "then" gives `IfThenValidator`, only
"else" gives `IfElseValidator`, neither gives `none`. -/
theorem compile_selects_node_shape
    (compile_validators : Value → Except E (Validators Inst Diag))
    (parent : List (String × Value)) (s t e : Value) :
    (mapGet parent "then" = some t → mapGet parent "else" = some e →
      compile compile_validators parent s
        = some (Except.map IfNode.ifThenElse
            (IfThenElseValidator.compile compile_validators s t e)))
    ∧ (mapGet parent "then" = some t → mapGet parent "else" = none →
      compile compile_validators parent s
        = some (Except.map IfNode.ifThen
            (IfThenValidator.compile compile_validators s t)))
    ∧ (mapGet parent "then" = none → mapGet parent "else" = some e →
      compile compile_validators parent s
        = some (Except.map IfNode.ifElse
            (IfElseValidator.compile compile_validators s e)))
    ∧ (mapGet parent "then" = none → mapGet parent "else" = none →
      compile compile_validators parent s = none) := by
  refine ⟨fun h1 h2 => ?_, fun h1 h2 => ?_, fun h1 h2 => ?_, fun h1 h2 => ?_⟩
    <;> simp only [compile, h1, h2]

/-- Witness for C6: both branch keys present selects the then+else shape,
neither present contributes no validator. -/
theorem compile_selects_node_shape_witness :
    (compile (fun _ => (Except.ok [] : Except Nat (Validators Nat Nat)))
        [("then", 1), ("else", 2)] 0
      = some (Except.map IfNode.ifThenElse
          (IfThenElseValidator.compile
            (fun _ => (Except.ok [] : Except Nat (Validators Nat Nat)))
            0 1 2)))
    ∧ compile (fun _ => (Except.ok [] : Except Nat (Validators Nat Nat)))
        ([] : List (String × Nat)) 0 = none :=
  ⟨((compile_selects_node_shape _ [("then", 1), ("else", 2)] 0 1 2).1)
      rfl rfl,
    ((compile_selects_node_shape _ [] 0 0 0).2.2.2) rfl rfl⟩

/-- C7: each variant's compile constructor propagates a compilation error of
the condition fragment, the "then" fragment, or the "else" fragment
unchanged, producing no node. -/
theorem compile_propagates_errors
    (compile_validators : Value → Except E (Validators Inst Diag))
    (s t e : Value) (err : E) :
    ((compile_validators s = Except.error err →
        IfThenValidator.compile compile_validators s t = Except.error err)
    ∧ (∀ vs, compile_validators s = Except.ok vs →
        compile_validators t = Except.error err →
        IfThenValidator.compile compile_validators s t = Except.error err))
    ∧ ((compile_validators s = Except.error err →
        IfElseValidator.compile compile_validators s e = Except.error err)
    ∧ (∀ vs, compile_validators s = Except.ok vs →
        compile_validators e = Except.error err →
        IfElseValidator.compile compile_validators s e = Except.error err))
    ∧ ((compile_validators s = Except.error err →
        IfThenElseValidator.compile compile_validators s t e
          = Except.error err)
    ∧ (∀ vs, compile_validators s = Except.ok vs →
        compile_validators t = Except.error err →
        IfThenElseValidator.compile compile_validators s t e
          = Except.error err)
    ∧ (∀ vs vt, compile_validators s = Except.ok vs →
        compile_validators t = Except.ok vt →
        compile_validators e = Except.error err →
        IfThenElseValidator.compile compile_validators s t e
          = Except.error err)) := by
  refine ⟨⟨fun h => ?_, fun vs hs h => ?_⟩,
    ⟨fun h => ?_, fun vs hs h => ?_⟩,
    fun h => ?_, fun vs hs h => ?_, fun vs vt hs ht h => ?_⟩
  · unfold IfThenValidator.compile; rw [h]; rfl
  · unfold IfThenValidator.compile; rw [hs, h]; rfl
  · unfold IfElseValidator.compile; rw [h]; rfl
  · unfold IfElseValidator.compile; rw [hs, h]; rfl
  · unfold IfThenElseValidator.compile; rw [h]; rfl
  · unfold IfThenElseValidator.compile; rw [hs, h]; rfl
  · unfold IfThenElseValidator.compile; rw [hs, ht, h]; rfl

/-- Witness for C7: a failing then fragment aborts the then-only
constructor with the same error. -/
theorem compile_propagates_errors_witness :
    IfThenValidator.compile
      (fun v => if v = 0 then (Except.ok [] : Except Nat (Validators Nat Nat))
        else Except.error 5) 0 1
      = Except.error 5 :=
  ((compile_propagates_errors
      (fun v => if v = 0 then (Except.ok [] : Except Nat (Validators Nat Nat))
        else Except.error 5) 0 1 2 5).1).2 [] rfl rfl

/-- C8: for each variant, `is_valid` uses the same condition test and branch
selection as `validate` and computes only the selected branch's boolean
outcome; it never consults any child's `validate` method, so its result is
unchanged when every child's diagnostics are replaced arbitrarily while
keeping the same `is_valid` outcomes. -/
theorem is_valid_no_diagnostics
    (c c' t t' e e' : Validators Inst Diag) (inst : Inst)
    (hc : c.map (fun v => v.is_valid inst)
      = c'.map (fun v => v.is_valid inst))
    (ht : t.map (fun v => v.is_valid inst)
      = t'.map (fun v => v.is_valid inst))
    (he : e.map (fun v => v.is_valid inst)
      = e'.map (fun v => v.is_valid inst)) :
    ((IfThenValidator.mk c t).is_valid inst
        = (IfThenValidator.mk c' t').is_valid inst)
    ∧ ((IfElseValidator.mk c e).is_valid inst
        = (IfElseValidator.mk c' e').is_valid inst)
    ∧ ((IfThenElseValidator.mk c t e).is_valid inst
        = (IfThenElseValidator.mk c' t' e').is_valid inst)
    ∧ ((IfThenValidator.mk c t).is_valid inst
        = if c.all (fun v => v.is_valid inst)
          then t.all (fun v => v.is_valid inst) else true)
    ∧ ((IfElseValidator.mk c e).is_valid inst
        = if c.any (fun v => !(v.is_valid inst))
          then e.all (fun v => v.is_valid inst) else true)
    ∧ ((IfThenElseValidator.mk c t e).is_valid inst
        = if c.all (fun v => v.is_valid inst)
          then t.all (fun v => v.is_valid inst)
          else e.all (fun v => v.is_valid inst)) := by
  have hca := map_eq_imp_all_eq _ _ c c' hc
  have hta := map_eq_imp_all_eq _ _ t t' ht
  have hea := map_eq_imp_all_eq _ _ e e' he
  have hcany : c.any (fun v => !(v.is_valid inst))
      = c'.any (fun v => !(v.is_valid inst)) := by
    rw [any_not_eq_not_all, any_not_eq_not_all, hca]
  refine ⟨?_, ?_, ?_, rfl, rfl, rfl⟩
  · unfold IfThenValidator.is_valid
    dsimp only
    rw [hca, hta]
  · unfold IfElseValidator.is_valid
    dsimp only
    rw [hcany, hea]
  · unfold IfThenElseValidator.is_valid
    dsimp only
    rw [hca, hta, hea]

/-- Witness for C8: swapping every child's diagnostics (keeping boolean
outcomes) leaves the then-only node's `is_valid` unchanged. -/
theorem is_valid_no_diagnostics_witness :
    (IfThenValidator.mk [okNode] [badNode]).is_valid 0
      = (IfThenValidator.mk [⟨fun _ => true, fun _ => [3]⟩]
          [⟨fun _ => false, fun _ => []⟩]).is_valid 0 :=
  (is_valid_no_diagnostics [okNode] [⟨fun _ => true, fun _ => [3]⟩]
      [badNode] [⟨fun _ => false, fun _ => []⟩] [] [] 0 rfl rfl rfl).1

/-- C9: branch specialization changes no observable behavior: a then-only
node matches a then+else node whose else-branch is the empty
(always-satisfied) collection, and an else-only node matches a then+else
node whose then-branch is empty, in both diagnostics and validity, for
every instance. -/
theorem branch_specialization_no_behavior_change
    (c t e : Validators Inst Diag) (inst : Inst) :
    ((IfThenValidator.mk c t).validate inst
        = (IfThenElseValidator.mk c t []).validate inst)
    ∧ ((IfThenValidator.mk c t).is_valid inst
        = (IfThenElseValidator.mk c t []).is_valid inst)
    ∧ ((IfElseValidator.mk c e).validate inst
        = (IfThenElseValidator.mk c [] e).validate inst)
    ∧ ((IfElseValidator.mk c e).is_valid inst
        = (IfThenElseValidator.mk c [] e).is_valid inst) := by
  have hne := any_not_eq_not_all c (fun v => v.is_valid inst)
  refine ⟨?_, ?_, ?_, ?_⟩
  · unfold IfThenValidator.validate IfThenElseValidator.validate
    dsimp only
    cases hcall : c.all (fun v => v.is_valid inst) <;> simp [hcall]
  · unfold IfThenValidator.is_valid IfThenElseValidator.is_valid
    dsimp only
    cases hcall : c.all (fun v => v.is_valid inst) <;> simp [hcall]
  · unfold IfElseValidator.validate IfThenElseValidator.validate
    dsimp only
    rw [hne]
    cases hcall : c.all (fun v => v.is_valid inst) <;> simp [hcall]
  · unfold IfElseValidator.is_valid IfThenElseValidator.is_valid
    dsimp only
    rw [hne]
    cases hcall : c.all (fun v => v.is_valid inst) <;> simp [hcall]

/-- C10: sub-fragments are compiled in the fixed order condition, "then",
"else"; when several would fail, the error of the earliest fragment in that
order is the one propagated. -/
theorem compile_first_error_wins
    (compile_validators : Value → Except E (Validators Inst Diag))
    (s t e : Value) (err1 err2 err3 : E) :
    (compile_validators s = Except.error err1 →
      compile_validators t = Except.error err2 →
      compile_validators e = Except.error err3 →
      (IfThenValidator.compile compile_validators s t = Except.error err1
      ∧ IfElseValidator.compile compile_validators s e = Except.error err1
      ∧ IfThenElseValidator.compile compile_validators s t e
          = Except.error err1))
    ∧ (∀ vs, compile_validators s = Except.ok vs →
      compile_validators t = Except.error err2 →
      compile_validators e = Except.error err3 →
      IfThenElseValidator.compile compile_validators s t e
        = Except.error err2) := by
  constructor
  · intro hs ht he
    refine ⟨?_, ?_, ?_⟩
    · unfold IfThenValidator.compile; rw [hs]; rfl
    · unfold IfElseValidator.compile; rw [hs]; rfl
    · unfold IfThenElseValidator.compile; rw [hs]; rfl
  · intro vs hs ht he
    unfold IfThenElseValidator.compile; rw [hs, ht]; rfl

/-- Witness for C10: condition and "then" both fail to compile; the
condition's error wins, and with a compiling condition the "then" error
wins over the "else" error. -/
theorem compile_first_error_wins_witness :
    (IfThenElseValidator.compile
        (fun v => if v = 0 then (Except.error 1 :
            Except Nat (Validators Nat Nat))
          else if v = 1 then Except.error 2 else Except.error 3) 0 1 2
      = Except.error 1)
    ∧ (IfThenElseValidator.compile
        (fun v => if v = 0 then (Except.ok [] :
            Except Nat (Validators Nat Nat))
          else if v = 1 then Except.error 2 else Except.error 3) 0 1 2
      = Except.error 2) :=
  ⟨((compile_first_error_wins
      (fun v => if v = 0 then (Except.error 1 :
          Except Nat (Validators Nat Nat))
        else if v = 1 then Except.error 2 else Except.error 3)
      0 1 2 1 2 3).1 (by simp) (by simp) (by simp)).2.2,
    (compile_first_error_wins
      (fun v => if v = 0 then (Except.ok [] :
          Except Nat (Validators Nat Nat))
        else if v = 1 then Except.error 2 else Except.error 3)
      0 1 2 1 2 3).2 [] (by simp) (by simp) (by simp)⟩
